import Mathlib

/-!
Shallow embedding of `astrbot_plugin_preset_hub` (final version, `src/main.py`).

The plugin keeps an in-memory store `self.data = { "presets": {...}, "aliases": {...} }`
of string-keyed, string-valued Python dicts, loaded from `global_presets.json` and
saved through `_save_safe` (backup copy, then write).  Python dicts are modelled as
association lists in insertion order with first-match lookup; every value the plugin
itself writes is a string, and JSON object keys are strings, so the store universe is
string-valued maps.  Raw on-disk JSON values (which may be nested objects, as in the
v1 "complex" schema) are modelled by `JVal`.
-/

namespace PresetHub

/-- A Python `dict[str, str]` as an insertion-ordered association list. -/
abbrev Dict := List (String × String)

/-- `d.get(k)` / `d[k]`-with-check: first binding for `k`, if any. -/
def dget : Dict → String → Option String
  | [], _ => none
  | (k', v') :: rest, k => if k' = k then some v' else dget rest k

/-- `d[k] = v`: replace the binding in place if `k` is already a key, else append. -/
def dinsert : Dict → String → String → Dict
  | [], k, v => [(k, v)]
  | (k', v') :: rest, k, v =>
    if k' = k then (k', v) :: rest else (k', v') :: dinsert rest k v

/-- `del d[k]` (guarded by a containment check in the source): drop the
binding for `k`. -/
def derase : Dict → String → Dict
  | [], _ => []
  | (k', v') :: rest, k =>
    if k' = k then derase rest k else (k', v') :: derase rest k

/-- The in-memory state `self.data`: `presets` maps preset names to prompt
content, `aliases` maps alias names to canonical preset names. -/
structure Store where
  presets : Dict
  aliases : Dict
deriving Repr, DecidableEq

/-- Raw JSON values as parsed from the store file (the shapes the plugin's own
data ever takes: strings and string-keyed objects). -/
inductive JVal where
  | jstr (s : String)
  | jobj (fields : List (String × JVal))

/-- Lookup in a raw JSON object (`k in raw` / `raw[k]`). -/
def jGet : List (String × JVal) → String → Option JVal
  | [], _ => none
  | (k', v') :: rest, k => if k' = k then some v' else jGet rest k

/-- The single-quote character used by Python `repr` on strings. -/
def squote : String := String.singleton (Char.ofNat 39)

mutual

/-- Python `repr` of a JSON-derived value (string escaping elided). -/
def pyRepr : JVal → String
  | .jstr s => squote ++ s ++ squote
  | .jobj fields => "\x7b" ++ pyReprFields fields ++ "\x7d"

/-- Python `repr` of the bindings of a dict, comma separated. -/
def pyReprFields : List (String × JVal) → String
  | [] => ""
  | [(k, v)] => squote ++ k ++ squote ++ ": " ++ pyRepr v
  | (k, v) :: rest =>
    squote ++ k ++ squote ++ ": " ++ pyRepr v ++ ", " ++ pyReprFields rest

end

/-- Python `str(v)`: identity on strings, `repr`-rendering on dicts. -/
def pyStr : JVal → String
  | .jstr s => s
  | .jobj fields => pyRepr (.jobj fields)

/-! ## Public read API (`resolve_preset`, src/main.py lines 102-115) -/

/-- `resolve_preset(key)`: `if not key: return None` (only the empty string is
falsy for `str`), then substitute the canonical name if `key` is an alias, then
look the resulting name up in `presets`. -/
def resolve_preset (s : Store) (key : String) : Option String :=
  if key = "" then none
  else
    let real_key := (dget s.aliases key).getD key
    dget s.presets real_key

/-! ## Mutating operations (command handlers, src/main.py lines 123-204)

Each handler mutates `self.data` and then calls `_save_safe`; the handlers are
modelled after argument parsing (for `add_preset`, `target_key` and
`prompt_content` are `parts[1]` and `parts[2].strip()` of the message).  The
pure store mutation and the full handler (which also records whether a save was
attempted and what is reported back) are modelled separately. -/

/-- The store mutation of `add_preset`: drop any alias entry named `target_key`
(promotion), then store the content under `target_key` in `presets`. -/
def add_preset (s : Store) (target_key prompt_content : String) : Store :=
  { presets := dinsert s.presets target_key prompt_content
    aliases := derase s.aliases target_key }

/-- The store mutation of `add_alias`: reject when `source` is not a preset key
or `alias` already is one (`none`); otherwise set `aliases[alias] = source`. -/
def add_alias (s : Store) (source al : String) : Option Store :=
  if (dget s.presets source).isNone then none
  else if (dget s.presets al).isSome then none
  else some { s with aliases := dinsert s.aliases al source }

/-- What `del_preset` reports back: which branch ran, and for a removed main
preset the list of cascade-removed alias names shown to the user. -/
inductive DelOutcome where
  | removedAlias (real : String)
  | removedPreset (cascaded : List String)
  | notFound
deriving Repr, DecidableEq

/-- The store mutation of `del_preset`: an alias key is removed alone; a preset
key is removed together with every alias entry whose value equals it (the
removed alias names are reported); otherwise the store is unchanged. -/
def del_preset (s : Store) (key : String) : Store × DelOutcome :=
  match dget s.aliases key with
  | some real => ({ s with aliases := derase s.aliases key }, .removedAlias real)
  | none =>
    if (dget s.presets key).isSome then
      let to_remove := (s.aliases.filter (fun p => p.2 == key)).map Prod.fst
      ({ presets := derase s.presets key
         aliases := s.aliases.filter (fun p => p.2 != key) }, .removedPreset to_remove)
    else (s, .notFound)

/-- What a handler reports back to the chat user, abstracted to the four
distinct message kinds the handlers emit on these paths. -/
inductive CmdReply where
  | success
  | saveFailed
  | validationError
  | notFoundError
deriving Repr, DecidableEq

/-- A handler run: the store left in memory, whether `_save_safe` was called,
and the kind of message yielded.  `saveOk` is the value `_save_safe` returns. -/
structure CmdOut where
  store : Store
  saveAttempted : Bool
  reply : CmdReply
deriving Repr, DecidableEq

/-- The `add_preset` handler: mutate, then `if self._save_safe(): ✅ else ❌`
— the only handler that branches on the save result. -/
def add_preset_cmd (s : Store) (target_key prompt_content : String) (saveOk : Bool) : CmdOut :=
  { store := add_preset s target_key prompt_content
    saveAttempted := true
    reply := if saveOk then .success else .saveFailed }

/-- The `add_alias` handler: on a validation error no save and an ❌ message;
otherwise mutate, call `self._save_safe()` with its result discarded, and yield
the 🔗 success message unconditionally (`saveOk` is ignored). -/
def add_alias_cmd (s : Store) (source al : String) (saveOk : Bool) : CmdOut :=
  match add_alias s source al with
  | none => { store := s, saveAttempted := false, reply := .validationError }
  | some s2 => { store := s2, saveAttempted := true, reply := .success }

/-- The `del_preset` handler: in both removal branches `self._save_safe()` is
called with its result discarded and a 🗑️ success message is yielded
(`saveOk` is ignored); on the not-found path no save and an ❌ message. -/
def del_preset_cmd (s : Store) (key : String) (saveOk : Bool) : CmdOut :=
  match del_preset s key with
  | (s2, .removedAlias real) => { store := s2, saveAttempted := true, reply := .success }
  | (s2, .removedPreset l) => { store := s2, saveAttempted := true, reply := .success }
  | (s2, .notFound) => { store := s2, saveAttempted := false, reply := .notFoundError }

/-! ## Load and migration (`_load_data`, src/main.py lines 32-69) -/

/-- The value migration of `_load_data`'s v1 branch:
`str(v["prompt"])` when `v` is a dict containing `"prompt"`, else `str(v)`. -/
def migrate_val (v : JVal) : String :=
  match v with
  | .jobj fields =>
    match jGet fields "prompt" with
    | some pv => pyStr pv
    | none => pyStr (.jobj fields)
  | .jstr s => pyStr (.jstr s)

/-- Extract a `Dict` from a raw JSON object whose values are all strings;
`none` marks an object outside the modelled string-valued universe (the plugin
itself only ever writes string values). -/
def strMap : List (String × JVal) → Option Dict
  | [] => some []
  | (k, .jstr v) :: rest => (strMap rest).map (fun d => (k, v) :: d)
  | (_, .jobj _) :: _ => none

/-- `_load_data` after a successful JSON parse of the top-level object
`fields`.  If `"presets" in raw and isinstance(raw["presets"], dict)` the raw
object is adopted as-is (with `aliases` defaulted to empty when missing);
otherwise every top-level entry is migrated through `migrate_val` and
`_save_safe` is triggered at once.  Returns the resulting store and whether the
migration save was triggered; `none` marks a v2 file whose maps are not
string-valued, which is outside the modelled universe. -/
def load_data (fields : List (String × JVal)) : Option (Store × Bool) :=
  match jGet fields "presets" with
  | some (.jobj ps) =>
    match strMap ps with
    | none => none
    | some presets =>
      match jGet fields "aliases" with
      | none => some ({ presets := presets, aliases := [] }, false)
      | some (.jobj al) =>
        (strMap al).map (fun aliases => ({ presets := presets, aliases := aliases }, false))
      | some (.jstr _) => none
  | _ =>
    some ({ presets := fields.map (fun p => (p.1, migrate_val p.2)), aliases := [] }, true)

/-! ## Safe save (`_save_safe`, src/main.py lines 86-98)

The file system is modelled by the contents of the store file and of the backup
file.  `_save_safe` runs one `try` block: (1) if the store file exists, copy it
over the backup file; (2) open the store file for writing (truncating it) and
dump the serialized data; any exception from either step lands in the single
`except` handler, which logs and returns `False`.  Failure injection:
`copyOk`/`writeOk` say whether each step raises; a failed copy leaves the
backup file holding `failedBackup` (possibly partially copied data) and a
failed write leaves the store file holding `failedWrite` (possibly truncated or
partially dumped data). -/

/-- The file-system state: contents of `global_presets.json` and of
`global_presets.json.bak` (`none` = file absent). -/
structure FS where
  storeFile : Option String
  backupFile : Option String
deriving Repr, DecidableEq

/-- `_save_safe`, returning the final file-system state and the boolean result. -/
def save_safe (fs : FS) (serialized : String) (copyOk writeOk : Bool)
    (failedWrite failedBackup : Option String) : FS × Bool :=
  if fs.storeFile.isSome then
    if copyOk then
      if writeOk then ({ storeFile := some serialized, backupFile := fs.storeFile }, true)
      else ({ storeFile := failedWrite, backupFile := fs.storeFile }, false)
    else ({ fs with backupFile := failedBackup }, false)
  else
    if writeOk then ({ fs with storeFile := some serialized }, true)
    else ({ fs with storeFile := failedWrite }, false)

/-! ## Store invariant and operation sequences -/

/-- The referential-integrity invariant: every alias value is a preset key, and
no alias key is simultaneously a preset key. -/
def storeInv (s : Store) : Bool :=
  s.aliases.all (fun p => (dget s.presets p.2).isSome) &&
  s.aliases.all (fun p => (dget s.presets p.1).isNone)

/-- One mutating operation of the store API. -/
inductive StoreOp where
  | addP (target_key prompt_content : String)
  | addA (source al : String)
  | del (key : String)

/-- Apply one operation to the in-memory store (a rejected `add_alias` and a
not-found `del_preset` leave the store unchanged, as in the handlers). -/
def applyOp (s : Store) : StoreOp → Store
  | .addP k c => add_preset s k c
  | .addA src al => (add_alias s src al).getD s
  | .del k => (del_preset s k).1

/-- Apply a sequence of operations left to right. -/
def applyOps (s : Store) (ops : List StoreOp) : Store :=
  ops.foldl applyOp s

/-! ## External config reconciler

Modelled from the spec: the External Config Reconciler (spec section 4.4) is part
of the repository's evolution that is not present under `src/`; only the spec
describes it.  `reconcile(store, externalEntries)` splits each `"key: value"`
string on its first colon, trims both halves, skips entries without a colon or
with an empty key or value after trimming, and for each valid entry sets
`store.presets[key]` and marks `changed` exactly when the stored value is
absent or differs; aliases are never touched and no preset is deleted. -/

/-- Whitespace for trimming (space, tab, newline, carriage return). -/
def isWS (c : Char) : Bool :=
  c = ' ' || c = '\t' || c = '\n' || c = '\r'

/-- Strip leading and trailing whitespace from a character list. -/
def trimChars (l : List Char) : List Char :=
  ((l.dropWhile isWS).reverse.dropWhile isWS).reverse

/-- Split a character list at its first colon; `none` when there is no colon. -/
def splitFirstColon : List Char → Option (List Char × List Char)
  | [] => none
  | c :: rest =>
    if c = ':' then some ([], rest)
    else (splitFirstColon rest).map (fun p => (c :: p.1, p.2))

/-- Modelled from the spec: parse one external `"key: value"` entry — split on
the first colon and trim both halves; `none` (skip) when there is no colon or
either half is empty after trimming. -/
def splitEntry (e : String) : Option (String × String) :=
  match splitFirstColon e.data with
  | none => none
  | some (k, v) =>
    let key := trimChars k
    let val := trimChars v
    if key.isEmpty || val.isEmpty then none
    else some (String.mk key, String.mk val)

/-- Modelled from the spec: fold one external entry into the store, setting the
preset and marking `changed` exactly when the stored value is absent or
differs. -/
def reconcileStep (acc : Store × Bool) (e : String) : Store × Bool :=
  match splitEntry e with
  | none => acc
  | some (k, v) =>
    if dget acc.1.presets k = some v then acc
    else ({ acc.1 with presets := dinsert acc.1.presets k v }, true)

/-- Modelled from the spec: reconcile a list of external `"key: value"` entries
into the store, returning the updated store and the `changed` flag. -/
def reconcile (s : Store) (entries : List String) : Store × Bool :=
  entries.foldl reconcileStep (s, false)

/-! ## Dictionary lemmas -/

theorem dget_dinsert (d : Dict) (k k' v : String) :
    dget (dinsert d k v) k' = if k = k' then some v else dget d k' := by
  induction d with
  | nil => simp [dinsert, dget]
  | cons hd tl ih =>
    obtain ⟨a, b⟩ := hd
    by_cases h1 : a = k
    · subst h1
      by_cases h2 : a = k'
      · subst h2; simp [dinsert, dget]
      · simp [dinsert, dget, h2]
    · by_cases h2 : a = k'
      · subst h2
        simp [dinsert, dget, h1, Ne.symm h1]
      · simp [dinsert, dget, h1, h2, ih]

theorem dget_derase (d : Dict) (k k' : String) :
    dget (derase d k) k' = if k' = k then none else dget d k' := by
  induction d with
  | nil => simp [derase, dget]
  | cons hd tl ih =>
    obtain ⟨a, b⟩ := hd
    by_cases h1 : a = k
    · subst h1
      by_cases h2 : k' = a
      · subst h2; simpa [derase, dget] using ih
      · simpa [derase, dget, h2, Ne.symm h2] using ih
    · by_cases h2 : a = k'
      · subst h2
        simp [derase, dget, h1]
      · simp [derase, dget, h1, h2, ih]

theorem mem_dinsert {p : String × String} {d : Dict} {k v : String}
    (h : p ∈ dinsert d k v) : p = (k, v) ∨ p ∈ d := by
  induction d with
  | nil => simpa [dinsert] using h
  | cons hd tl ih =>
    obtain ⟨a, b⟩ := hd
    by_cases h1 : a = k
    · subst h1
      rcases (by simpa [dinsert] using h : p = (a, v) ∨ p ∈ tl) with h2 | h2
      · exact Or.inl h2
      · exact Or.inr (List.mem_cons_of_mem _ h2)
    · rcases (by simpa [dinsert, h1] using h : p = (a, b) ∨ p ∈ dinsert tl k v) with h2 | h2
      · exact Or.inr (by simp [h2])
      · rcases ih h2 with h3 | h3
        · exact Or.inl h3
        · exact Or.inr (List.mem_cons_of_mem _ h3)

theorem mem_derase {p : String × String} {d : Dict} {k : String} :
    p ∈ derase d k ↔ p ∈ d ∧ p.1 ≠ k := by
  induction d with
  | nil => simp [derase]
  | cons hd tl ih =>
    obtain ⟨a, b⟩ := hd
    by_cases h1 : a = k
    · subst h1
      have hstep : derase ((a, b) :: tl) a = derase tl a := by simp [derase]
      rw [hstep, ih, List.mem_cons]
      constructor
      · exact fun ⟨h, hne⟩ => ⟨Or.inr h, hne⟩
      · rintro ⟨h | h, hne⟩
        · subst h; exact absurd rfl hne
        · exact ⟨h, hne⟩
    · simp only [derase, if_neg h1, List.mem_cons]
      constructor
      · rintro (h | h)
        · subst h; exact ⟨Or.inl rfl, h1⟩
        · exact ⟨Or.inr (ih.mp h).1, (ih.mp h).2⟩
      · rintro ⟨h | h, hne⟩
        · exact Or.inl h
        · exact Or.inr (ih.mpr ⟨h, hne⟩)

/-! ## Invariant preservation -/

theorem storeInv_iff (s : Store) :
    storeInv s = true ↔
      (∀ p ∈ s.aliases, (dget s.presets p.2).isSome = true) ∧
      (∀ p ∈ s.aliases, dget s.presets p.1 = none) := by
  simp [storeInv, List.all_eq_true, Option.isNone_iff_eq_none]

theorem inv_add_preset {s : Store} (h : storeInv s = true) (k c : String) :
    storeInv (add_preset s k c) = true := by
  obtain ⟨h1, h2⟩ := (storeInv_iff s).mp h
  rw [storeInv_iff]
  constructor
  · intro p hp
    obtain ⟨hmem, _⟩ := mem_derase.mp hp
    rw [show (add_preset s k c).presets = dinsert s.presets k c from rfl, dget_dinsert]
    by_cases hk : k = p.2 <;> simp [hk, h1 p hmem]
  · intro p hp
    obtain ⟨hmem, hne⟩ := mem_derase.mp hp
    rw [show (add_preset s k c).presets = dinsert s.presets k c from rfl, dget_dinsert]
    simp [Ne.symm hne, h2 p hmem]

theorem inv_add_alias {s s' : Store} {src al : String}
    (hs : add_alias s src al = some s') (h : storeInv s = true) :
    storeInv s' = true := by
  obtain ⟨h1, h2⟩ := (storeInv_iff s).mp h
  by_cases c1 : (dget s.presets src).isNone
  · simp [add_alias, c1] at hs
  · by_cases c2 : (dget s.presets al).isSome
    · simp [add_alias, c1, c2] at hs
    · rw [add_alias, if_neg (by simpa using c1), if_neg (by simpa using c2),
        Option.some_inj] at hs
      subst hs
      rw [storeInv_iff]
      constructor
      · intro p hp
        rcases mem_dinsert hp with h3 | h3
        · rw [h3]
          simpa [Option.isNone_iff_eq_none, Option.isSome_iff_ne_none] using c1
        · exact h1 p h3
      · intro p hp
        rcases mem_dinsert hp with h3 | h3
        · rw [h3]
          simpa [Option.not_isSome_iff_eq_none] using c2
        · exact h2 p h3

theorem inv_del_preset {s : Store} (h : storeInv s = true) (k : String) :
    storeInv (del_preset s k).1 = true := by
  obtain ⟨h1, h2⟩ := (storeInv_iff s).mp h
  rcases hc : dget s.aliases k with _ | real
  · by_cases hp : (dget s.presets k).isSome
    · have heq : (del_preset s k).1 =
          { presets := derase s.presets k
            aliases := s.aliases.filter (fun p => p.2 != k) } := by
        simp [del_preset, hc, hp]
      rw [heq, storeInv_iff]
      dsimp only
      constructor
      · intro p hmem
        obtain ⟨hmem', hb⟩ := List.mem_filter.mp hmem
        have hne : p.2 ≠ k := by simpa [bne_iff_ne] using hb
        rw [dget_derase]
        simp [hne, h1 p hmem']
      · intro p hmem
        obtain ⟨hmem', _⟩ := List.mem_filter.mp hmem
        rw [dget_derase]
        by_cases h5 : p.1 = k <;> simp [h5, h2 p hmem']
    · have heq : (del_preset s k).1 = s := by simp [del_preset, hc, hp]
      rw [heq]; exact h
  · have heq : (del_preset s k).1 = { s with aliases := derase s.aliases k } := by
      simp [del_preset, hc]
    rw [heq, storeInv_iff]
    dsimp only
    exact ⟨fun p hp2 => h1 p (mem_derase.mp hp2).1, fun p hp2 => h2 p (mem_derase.mp hp2).1⟩

/-! ## Claim theorems -/

/-- C1, counterexample: with an existing store file `"old"`, a successful step-1
backup and a failed step-2 write that leaves `"garbled"` in the store file,
`_save_safe` returns failure but performs no restoring copy from the backup:
the store file ends as `"garbled"`, not the pre-attempt content `"old"`, so the
claimed restore-on-failure does not happen. -/
theorem save_safe_write_failure_no_restore_cex :
    (save_safe ⟨some "old", none⟩ "new" true false (some "garbled") none).2 = false ∧
    (save_safe ⟨some "old", none⟩ "new" true false (some "garbled") none).1.storeFile
      = some "garbled" ∧
    (save_safe ⟨some "old", none⟩ "new" true false (some "garbled") none).1.storeFile
      ≠ some "old" := by
  refine ⟨rfl, rfl, by decide⟩

/-- C1 (amended): when a pre-existing store file was copied to the backup path
and step 2 then fails, `_save_safe` returns failure and the backup file holds
the pre-attempt store file content, but no restore is attempted — the store
file is left with whatever the failed write produced. -/
theorem save_safe_write_failure_behavior (old serialized : String)
    (bk failedWrite failedBackup : Option String) :
    save_safe ⟨some old, bk⟩ serialized true false failedWrite failedBackup
      = (⟨failedWrite, some old⟩, false) := by
  simp [save_safe]

/-- C8, counterexample: with an existing store file, a failed step-1 backup
copy aborts the whole save — even though the write step would succeed
(`writeOk = true`), the store file is never written and `_save_safe` returns
failure, because the copy sits inside the same `try` block as the write. -/
theorem save_safe_copy_failure_aborts_cex :
    (save_safe ⟨some "old", none⟩ "new" false true none none).2 = false ∧
    (save_safe ⟨some "old", none⟩ "new" false true none none).1.storeFile = some "old" := by
  exact ⟨rfl, rfl⟩

/-- C8 (amended): when the store file exists and the step-1 backup copy fails,
the save attempt is aborted: the serialization and write of step 2 are not
performed, the store file is untouched, and `_save_safe` returns failure
regardless of whether the write would have succeeded. -/
theorem save_safe_copy_failure_behavior (old serialized : String)
    (bk failedWrite failedBackup : Option String) (writeOk : Bool) :
    save_safe ⟨some old, bk⟩ serialized false writeOk failedWrite failedBackup
      = (⟨some old, failedBackup⟩, false) := by
  simp [save_safe]

/-- C4: for every store and every valid pair (non-empty name, content),
`add_preset` followed by `resolve_preset` on the same name returns the content;
this holds in particular when the name was previously an alias key, since
`add_preset` deletes that alias entry before storing the preset. -/
theorem resolve_after_add_preset (s : Store) (name content : String) (h : name ≠ "") :
    resolve_preset (add_preset s name content) name = some content := by
  simp [resolve_preset, add_preset, h, dget_derase, dget_dinsert]

/-- Witness for C4 at a concrete store in which the name is an alias key. -/
theorem resolve_after_add_preset_witness :
    resolve_preset (add_preset ⟨[("p", "c")], [("figurine", "p")]⟩ "figurine" "plastic") "figurine"
      = some "plastic" :=
  resolve_after_add_preset ⟨[("p", "c")], [("figurine", "p")]⟩ "figurine" "plastic" (by decide)

/-- C6, counterexample: the input name `" "` is whitespace-only (blank) and
non-empty, and on a store whose presets map contains the key `" "` (reachable,
since the v2 load branch adopts the on-disk maps as-is) `resolve_preset " "`
returns that content rather than absent — only the empty string short-circuits
(`if not key`), blank names are looked up normally. -/
theorem resolve_blank_name_cex :
    " ".data.all isWS = true ∧
    resolve_preset ⟨[(" ", "content")], []⟩ " " = some "content" := by
  exact ⟨rfl, rfl⟩

/-- C6 (amended): `resolve_preset` on the empty name always returns absent and
never throws; every non-empty name — including blank, whitespace-only ones —
is first substituted through `aliases` when present there and the resulting
name is looked up in `presets`. -/
theorem resolve_preset_spec (s : Store) :
    resolve_preset s "" = none ∧
    ∀ name, name ≠ "" →
      resolve_preset s name = dget s.presets ((dget s.aliases name).getD name) := by
  constructor
  · simp [resolve_preset]
  · intro name h
    simp [resolve_preset, h]

/-- Witness for C6 (amended) at a concrete store, resolving through an alias. -/
theorem resolve_preset_spec_witness :
    resolve_preset ⟨[("p", "c")], [("a", "p")]⟩ "a"
      = dget [("p", "c")] ((dget [("a", "p")] "a").getD "a") :=
  (resolve_preset_spec ⟨[("p", "c")], [("a", "p")]⟩).2 "a" (by decide)

/-- C2, counterexample: startup load of the v2 file
`{"presets": {}, "aliases": {"b": "z"}}` adopts the maps as-is without any
validation, yielding (with zero subsequent operations) a reachable state whose
alias `"b"` dangles — its value `"z"` is not a preset key — so the claimed
invariant does not hold in every state reachable by startup load followed by
operations. -/
theorem load_v2_dangling_alias_cex :
    load_data [("presets", .jobj []), ("aliases", .jobj [("b", .jstr "z")])]
      = some (⟨[], [("b", "z")]⟩, false) ∧
    storeInv ⟨[], [("b", "z")]⟩ = false := by
  exact ⟨rfl, rfl⟩

/-- C2 (amended): the referential-integrity invariant (every alias value is a
preset key, and no name is both a preset key and an alias key) is preserved by
every sequence of `add_preset`, `add_alias` and `del_preset` operations from
any state satisfying it; the v1-migration and default-init load paths
establish it, but the v2 load branch adopts the on-disk maps unvalidated and
may yield a violating initial state. -/
theorem storeInv_preserved_by_ops (s : Store) (ops : List StoreOp)
    (h : storeInv s = true) : storeInv (applyOps s ops) = true := by
  induction ops generalizing s with
  | nil => simpa [applyOps] using h
  | cons op rest ih =>
    have h1 : storeInv (applyOp s op) = true := by
      cases op with
      | addP k c => exact inv_add_preset h k c
      | addA src al =>
        rcases he : add_alias s src al with _ | s2
        · simpa [applyOp, he] using h
        · simpa [applyOp, he] using inv_add_alias he h
      | del k => exact inv_del_preset h k
    simpa [applyOps, List.foldl_cons] using ih (applyOp s op) h1

/-- Witness for C2 (amended): a concrete invariant-satisfying store stays
invariant-satisfying under a concrete operation sequence. -/
theorem storeInv_preserved_by_ops_witness :
    storeInv (applyOps ⟨[("p", "c")], [("a", "p")]⟩
      [.addP "q" "d", .addA "q" "b", .del "p"]) = true :=
  storeInv_preserved_by_ops ⟨[("p", "c")], [("a", "p")]⟩
    [.addP "q" "d", .addA "q" "b", .del "p"] (by decide)

/-- C3: `del_preset` on an alias key deletes only that alias entry (presets and
all other aliases untouched); on a preset key (checked only after the alias
branch misses) it deletes the preset, cascade-deletes exactly the alias
entries whose canonical target equals the key, and reports precisely the
cascade-removed alias names; on a name that is neither, it returns a not-found
outcome with the store unchanged. -/
theorem del_preset_cases (s : Store) (key : String) :
    ((dget s.aliases key).isSome = true →
      (del_preset s key).1.presets = s.presets ∧
      dget (del_preset s key).1.aliases key = none ∧
      (∀ k, k ≠ key → dget (del_preset s key).1.aliases k = dget s.aliases k)) ∧
    (dget s.aliases key = none → (dget s.presets key).isSome = true →
      dget (del_preset s key).1.presets key = none ∧
      (∀ k, k ≠ key → dget (del_preset s key).1.presets k = dget s.presets k) ∧
      (∀ p : String × String, p ∈ (del_preset s key).1.aliases ↔ p ∈ s.aliases ∧ p.2 ≠ key) ∧
      (∃ l, (del_preset s key).2 = .removedPreset l ∧ ∀ a, a ∈ l ↔ (a, key) ∈ s.aliases)) ∧
    (dget s.aliases key = none → dget s.presets key = none →
      del_preset s key = (s, .notFound)) := by
  refine ⟨?_, ?_, ?_⟩
  · intro h
    rcases hc : dget s.aliases key with _ | real
    · rw [hc] at h; simp at h
    · have heq : del_preset s key =
          ({ s with aliases := derase s.aliases key }, .removedAlias real) := by
        simp [del_preset, hc]
      rw [heq]
      refine ⟨rfl, ?_, ?_⟩
      · dsimp only
        rw [dget_derase]; simp
      · intro k hk
        dsimp only
        rw [dget_derase]; simp [hk]
  · intro hc hp
    have heq : del_preset s key =
        ({ presets := derase s.presets key
           aliases := s.aliases.filter (fun p => p.2 != key) },
         .removedPreset ((s.aliases.filter (fun p => p.2 == key)).map Prod.fst)) := by
      simp [del_preset, hc, hp]
    rw [heq]
    dsimp only
    refine ⟨?_, ?_, ?_, ?_⟩
    · rw [dget_derase]; simp
    · intro k hk
      rw [dget_derase]; simp [hk]
    · intro p
      simp [List.mem_filter, bne_iff_ne]
    · refine ⟨_, rfl, fun a => ?_⟩
      constructor
      · intro ha
        obtain ⟨p, hpf, hpa⟩ := List.mem_map.mp ha
        obtain ⟨hmem, hpk⟩ := List.mem_filter.mp hpf
        have hpk' : p.2 = key := by simpa [beq_iff_eq] using hpk
        obtain ⟨p1, p2⟩ := p
        dsimp only at hpa hpk'
        subst hpa; subst hpk'
        exact hmem
      · intro hmem
        exact List.mem_map.mpr ⟨(a, key), List.mem_filter.mpr ⟨hmem, by simp⟩, rfl⟩
  · intro hc hp
    simp [del_preset, hc, Option.not_isSome_iff_eq_none.mpr hp]

/-- Witness for C3 exercising all three branches at concrete stores. -/
theorem del_preset_cases_witness :
    (del_preset ⟨[("p", "c")], [("a", "p")]⟩ "a").1.presets = [("p", "c")] ∧
    dget (del_preset ⟨[("p", "c")], [("a", "p")]⟩ "p").1.presets "p" = none ∧
    del_preset ⟨[("p", "c")], [("a", "p")]⟩ "x" = (⟨[("p", "c")], [("a", "p")]⟩, .notFound) := by
  refine ⟨?_, ?_, ?_⟩
  · exact ((del_preset_cases ⟨[("p", "c")], [("a", "p")]⟩ "a").1 (by decide)).1
  · exact ((del_preset_cases ⟨[("p", "c")], [("a", "p")]⟩ "p").2.1 (by decide) (by decide)).1
  · exact (del_preset_cases ⟨[("p", "c")], [("a", "p")]⟩ "x").2.2 (by decide) (by decide)

/-- C5, counterexample: `add_alias` accepts the empty string as the new alias
name (the handler performs no emptiness check), and afterwards
`resolve_preset` on the empty alias returns absent — not the canonical
preset's content — because `resolve_preset` short-circuits on the empty
string; so "on success resolve(alias) equals resolve(canonicalName)" fails as
universally stated. -/
theorem add_alias_empty_alias_resolve_cex :
    add_alias ⟨[("a", "x")], []⟩ "a" "" = some ⟨[("a", "x")], [("", "a")]⟩ ∧
    resolve_preset ⟨[("a", "x")], [("", "a")]⟩ "" = none ∧
    resolve_preset ⟨[("a", "x")], [("", "a")]⟩ "a" = some "x" := by
  exact ⟨rfl, rfl, rfl⟩

/-- C5 (amended): `add_alias` fails (with no new store) exactly when the
canonical name is not an existing preset key or the alias is itself a preset
key; on success the presets are unchanged and `aliases[alias] = source`, and
`resolve_preset alias = resolve_preset source` holds provided the alias and
the source are non-empty and the source is not itself an alias key (as the
store invariant guarantees). -/
theorem add_alias_spec (s : Store) (source al : String) :
    (add_alias s source al = none ↔
      dget s.presets source = none ∨ (dget s.presets al).isSome = true) ∧
    ∀ s', add_alias s source al = some s' →
      s'.presets = s.presets ∧
      dget s'.aliases al = some source ∧
      (al ≠ "" → source ≠ "" → dget s.aliases source = none →
        resolve_preset s' al = resolve_preset s' source) := by
  constructor
  · constructor
    · intro h
      by_cases c1 : (dget s.presets source).isNone
      · exact Or.inl (Option.isNone_iff_eq_none.mp c1)
      · by_cases c2 : (dget s.presets al).isSome
        · exact Or.inr c2
        · simp [add_alias, c1, c2] at h
    · intro h
      rcases h with h | h
      · simp [add_alias, h]
      · by_cases c1 : (dget s.presets source).isNone
        · simp [add_alias, c1]
        · simp [add_alias, c1, h]
  · intro s' hs
    by_cases c1 : (dget s.presets source).isNone
    · simp [add_alias, c1] at hs
    · by_cases c2 : (dget s.presets al).isSome
      · simp [add_alias, c1, c2] at hs
      · rw [add_alias, if_neg (by simpa using c1), if_neg (by simpa using c2),
          Option.some_inj] at hs
        subst hs
        refine ⟨rfl, ?_, ?_⟩
        · show dget (dinsert s.aliases al source) al = some source
          rw [dget_dinsert]; simp
        · intro hal hsource hnal
          have hne : source ≠ al := by
            intro h
            apply c1
            rw [h, Option.isNone_iff_eq_none]
            exact Option.not_isSome_iff_eq_none.mp c2
          simp [resolve_preset, hal, hsource, hnal, dget_dinsert, Ne.symm hne]

/-- Witness for C5 (amended): a concrete successful `add_alias` after which the
alias and the canonical name resolve alike. -/
theorem add_alias_spec_witness :
    resolve_preset ⟨[("a", "x")], [("b", "a")]⟩ "b"
      = resolve_preset ⟨[("a", "x")], [("b", "a")]⟩ "a" :=
  ((add_alias_spec ⟨[("a", "x")], []⟩ "a" "b").2 ⟨[("a", "x")], [("b", "a")]⟩
    (by decide)).2.2 (by decide) (by decide) (by decide)

/-- C7: for every raw top-level object without a `presets` field, `_load_data`
takes the migration branch: each entry's value becomes `str(value["prompt"])`
when the value is a dict containing `"prompt"` and `str(value)` otherwise,
aliases come out empty, and an immediate persist (`_save_safe`) is triggered;
in particular `{"a": "x", "b": {"prompt": "y", "negative": "z"}}` migrates to
`presets = {"a": "x", "b": "y"}`, `aliases = {}`. -/
theorem load_data_migration :
    (∀ fields : List (String × JVal), jGet fields "presets" = none →
      load_data fields
        = some ({ presets := fields.map (fun p => (p.1, migrate_val p.2)), aliases := [] },
            true)) ∧
    load_data [("a", .jstr "x"), ("b", .jobj [("prompt", .jstr "y"), ("negative", .jstr "z")])]
      = some (⟨[("a", "x"), ("b", "y")], []⟩, true) := by
  constructor
  · intro fields h
    simp [load_data, h]
  · rfl

/-- Witness for C7 at a concrete presets-free raw object. -/
theorem load_data_migration_witness :
    load_data [("a", JVal.jstr "x")]
      = some (⟨[("a", JVal.jstr "x")].map (fun p => (p.1, migrate_val p.2)), []⟩, true) :=
  load_data_migration.1 [("a", JVal.jstr "x")] rfl

/-- `del_preset` leaves the store unchanged whenever it reports not-found. -/
theorem del_preset_notFound_store {s : Store} {k : String}
    (h : (del_preset s k).2 = .notFound) : (del_preset s k).1 = s := by
  rcases hc : dget s.aliases k with _ | real
  · by_cases hp : (dget s.presets k).isSome
    · simp [del_preset, hc, hp] at h
    · simp [del_preset, hc, hp]
  · simp [del_preset, hc] at h

/-- C9, counterexample: with the persist failing (`saveOk = false`), the
`add_alias` and `del_preset` handlers still yield their success message — the
`_save_safe()` result is discarded on those paths — so the persist failure is
not reported to the caller, while the in-memory mutation is kept. -/
theorem handlers_ignore_save_result_cex :
    add_alias_cmd ⟨[("a", "x")], []⟩ "a" "b" false
      = ⟨⟨[("a", "x")], [("b", "a")]⟩, true, .success⟩ ∧
    del_preset_cmd ⟨[("a", "x")], []⟩ "a" false = ⟨⟨[], []⟩, true, .success⟩ := by
  exact ⟨rfl, rfl⟩

/-- C9 (amended): every mutating branch of the three handlers calls
`_save_safe` before returning and keeps the in-memory mutation regardless of
the persist result (the resulting store does not depend on `saveOk`); but only
`add_preset` reports a persist failure — `add_alias` and `del_preset` discard
the save result and report success either way. -/
theorem handlers_persist_and_report (s : Store) :
    (∀ k c saveOk, add_preset_cmd s k c saveOk
        = ⟨add_preset s k c, true, if saveOk then .success else .saveFailed⟩) ∧
    (∀ src al saveOk s', add_alias s src al = some s' →
        add_alias_cmd s src al saveOk = ⟨s', true, .success⟩) ∧
    (∀ k saveOk, (del_preset s k).2 ≠ .notFound →
        del_preset_cmd s k saveOk = ⟨(del_preset s k).1, true, .success⟩) ∧
    (∀ k saveOk, (del_preset s k).2 = .notFound →
        del_preset_cmd s k saveOk = ⟨s, false, .notFoundError⟩) := by
  refine ⟨fun k c saveOk => rfl, ?_, ?_, ?_⟩
  · intro src al saveOk s' h
    simp [add_alias_cmd, h]
  · intro k saveOk h
    rcases hd : del_preset s k with ⟨s2, outcome⟩
    cases outcome with
    | removedAlias real => simp [del_preset_cmd, hd]
    | removedPreset l => simp [del_preset_cmd, hd]
    | notFound => rw [hd] at h; simp at h
  · intro k saveOk h
    rcases hd : del_preset s k with ⟨s2, outcome⟩
    cases outcome with
    | removedAlias real => rw [hd] at h; simp at h
    | removedPreset l => rw [hd] at h; simp at h
    | notFound =>
      have hs2 : s2 = s := by
        have h1 := del_preset_notFound_store (s := s) (k := k) (by rw [hd])
        rw [hd] at h1
        exact h1
      simp [del_preset_cmd, hd, hs2]

/-- Witness for C9 (amended) exercising the alias-added, preset-removed and
not-found branches at concrete stores. -/
theorem handlers_persist_and_report_witness :
    add_alias_cmd ⟨[("a", "x")], []⟩ "a" "b" true
      = ⟨⟨[("a", "x")], [("b", "a")]⟩, true, .success⟩ ∧
    del_preset_cmd ⟨[("a", "x")], []⟩ "a" true = ⟨⟨[], []⟩, true, .success⟩ ∧
    del_preset_cmd ⟨[("a", "x")], []⟩ "zz" true
      = ⟨⟨[("a", "x")], []⟩, false, .notFoundError⟩ := by
  refine ⟨?_, ?_, ?_⟩
  · exact (handlers_persist_and_report ⟨[("a", "x")], []⟩).2.1 "a" "b" true
      ⟨[("a", "x")], [("b", "a")]⟩ (by decide)
  · exact (handlers_persist_and_report ⟨[("a", "x")], []⟩).2.2.1 "a" true (by decide)
  · exact (handlers_persist_and_report ⟨[("a", "x")], []⟩).2.2.2 "zz" true (by decide)

/-- One reconcile step never touches the aliases. -/
theorem reconcileStep_aliases (acc : Store × Bool) (e : String) :
    (reconcileStep acc e).1.aliases = acc.1.aliases := by
  rcases h : splitEntry e with _ | ⟨k, v⟩
  · simp [reconcileStep, h]
  · by_cases h2 : dget acc.1.presets k = some v <;> simp [reconcileStep, h, h2]

/-- One reconcile step never deletes a present preset. -/
theorem reconcileStep_presets_isSome {acc : Store × Bool} {x : String} (e : String)
    (h : (dget acc.1.presets x).isSome = true) :
    (dget (reconcileStep acc e).1.presets x).isSome = true := by
  rcases hs : splitEntry e with _ | ⟨k, v⟩
  · simpa [reconcileStep, hs] using h
  · by_cases h2 : dget acc.1.presets k = some v
    · simpa [reconcileStep, hs, h2] using h
    · simp only [reconcileStep, hs, if_neg h2]
      show (dget (dinsert acc.1.presets k v) x).isSome = true
      rw [dget_dinsert]
      by_cases h3 : k = x <;> simp [h3, h]

/-- Folding reconcile steps never touches the aliases. -/
theorem reconcile_foldl_aliases (entries : List String) (acc : Store × Bool) :
    (entries.foldl reconcileStep acc).1.aliases = acc.1.aliases := by
  induction entries generalizing acc with
  | nil => rfl
  | cons e rest ih => rw [List.foldl_cons, ih, reconcileStep_aliases]

/-- Folding reconcile steps never deletes a present preset. -/
theorem reconcile_foldl_isSome (entries : List String) (acc : Store × Bool) (x : String)
    (h : (dget acc.1.presets x).isSome = true) :
    (dget (entries.foldl reconcileStep acc).1.presets x).isSome = true := by
  induction entries generalizing acc with
  | nil => exact h
  | cons e rest ih => exact ih _ (reconcileStep_presets_isSome e h)

/-- C10 (spec-modelled): `reconcile` leaves aliases untouched and never deletes
a preset; each entry is split on its first colon with both halves trimmed,
entries without a colon or with an empty key or value are skipped, and a valid
entry sets the preset and marks `changed` exactly when the stored value is
absent or differs; on `presets = {"k": "old"}` with entries
`["k: new", "bad_no_colon", "m: "]` the result is `presets = {"k": "new"}`
with `changed = true`. -/
theorem reconcile_spec :
    (∀ (s : Store) (entries : List String), (reconcile s entries).1.aliases = s.aliases) ∧
    (∀ (s : Store) (entries : List String) (x : String), (dget s.presets x).isSome = true →
      (dget (reconcile s entries).1.presets x).isSome = true) ∧
    (∀ (acc : Store × Bool) (e : String), splitEntry e = none → reconcileStep acc e = acc) ∧
    (∀ (st : Store) (ch : Bool) (e k v : String), splitEntry e = some (k, v) →
      (dget st.presets k = some v → reconcileStep (st, ch) e = (st, ch)) ∧
      (dget st.presets k ≠ some v →
        reconcileStep (st, ch) e = ({ st with presets := dinsert st.presets k v }, true))) ∧
    reconcile ⟨[("k", "old")], []⟩ ["k: new", "bad_no_colon", "m: "]
      = (⟨[("k", "new")], []⟩, true) := by
  refine ⟨?_, ?_, ?_, ?_, ?_⟩
  · intro s entries
    exact reconcile_foldl_aliases entries (s, false)
  · intro s entries x h
    exact reconcile_foldl_isSome entries (s, false) x h
  · intro acc e h
    simp [reconcileStep, h]
  · intro st ch e k v h
    constructor
    · intro h2
      simp [reconcileStep, h, h2]
    · intro h2
      simp [reconcileStep, h, h2]
  · rfl

/-- Witness for C10 exercising a kept preset, a skipped entry, an unchanged
entry and an updating entry at concrete inputs. -/
theorem reconcile_spec_witness :
    (dget (reconcile ⟨[("p", "c")], []⟩ ["x: y"]).1.presets "p").isSome = true ∧
    reconcileStep (⟨[("p", "c")], []⟩, false) "nocolon" = (⟨[("p", "c")], []⟩, false) ∧
    reconcileStep (⟨[("p", "c")], []⟩, false) "p: c" = (⟨[("p", "c")], []⟩, false) ∧
    reconcileStep (⟨[("p", "c")], []⟩, false) "p: d" = (⟨[("p", "d")], []⟩, true) := by
  refine ⟨?_, ?_, ?_, ?_⟩
  · exact reconcile_spec.2.1 ⟨[("p", "c")], []⟩ ["x: y"] "p" (by decide)
  · exact reconcile_spec.2.2.1 (⟨[("p", "c")], []⟩, false) "nocolon" (by decide)
  · exact (reconcile_spec.2.2.2.1 ⟨[("p", "c")], []⟩ false "p: c" "p" "c" (by decide)).1 (by decide)
  · exact (reconcile_spec.2.2.2.1 ⟨[("p", "c")], []⟩ false "p: d" "p" "d" (by decide)).2 (by decide)

end PresetHub
